import Mathlib

/-!
Shallow embedding of RustPython's sequence protocol dispatch layer
(`vm/src/protocol/sequence.rs`).

The embedding is parametric in the runtime object type `Obj`.  External
collaborators (type/MRO lookup, arithmetic operator dispatch, the iteration
protocol, the generic equality test, container constructors) are bundled in a
`VirtualMachine` record of abstract functions, exactly at the interface the
source file consumes them.  Machine integers: `usize` counters are `Nat`,
`isize` indices are `Int`; the platform constant `isize::MAX` is the
`VirtualMachine.isize_max` field, so every theorem holds for every platform
value of it.
-/

/-- Error values returned by the runtime: kind plus human-readable message,
as produced by `vm.new_type_error`, `vm.new_value_error`,
`vm.new_overflow_error`; `other` stands for any error raised by a slot,
an operator, or the iteration protocol. -/
inductive PyErr where
  | typeError (msg : String)
  | valueError (msg : String)
  | overflowError (msg : String)
  | other (msg : String)
  deriving DecidableEq

/-- The `PyResult<T>` type of the source: a value or an error. -/
abbrev PyResult (α : Type) : Type := Except PyErr α

deriving instance DecidableEq for Except

/-- The method table `PySequenceMethods`: eight independent optional
operation slots.  Slot functions receive the receiver object (the source
passes the sequence view `&PySequence`, whose payload is that object). -/
structure PySequenceMethods (Obj : Type) where
  length : Option (Obj → PyResult Nat)
  concat : Option (Obj → Obj → PyResult Obj)
  «repeat» : Option (Obj → Nat → PyResult Obj)
  item : Option (Obj → Int → PyResult Obj)
  ass_item : Option (Obj → Int → Option Obj → PyResult Unit)
  contains : Option (Obj → Obj → PyResult Bool)
  inplace_concat : Option (Obj → Obj → PyResult Obj)
  inplace_repeat : Option (Obj → Nat → PyResult Obj)

/-- The shared static `NOT_IMPLEMENTED` table: every slot empty. -/
def PySequenceMethods.not_implemented (Obj : Type) : PySequenceMethods Obj :=
  { length := none, concat := none, «repeat» := none, item := none,
    ass_item := none, contains := none,
    inplace_concat := none, inplace_repeat := none }

/-- The sibling mapping protocol's method table (`PyMappingMethods`): only the
two slots this file consumes, for slicing. -/
structure PyMappingMethods (Obj : Type) where
  subscript : Option (Obj → Obj → PyResult Obj)
  ass_subscript : Option (Obj → Obj → Option Obj → PyResult Unit)

/-- The slice value `PySlice { start, stop, step }` built by the slicing
paths before conversion to an object. -/
structure PySlice (Obj : Type) where
  start : Option Obj
  stop : Obj
  step : Option Obj

/-- One entry of a type's method-resolution-order list: the two per-type
slot cells (`slots.as_sequence`, `slots.as_mapping`) read by this file. -/
structure PyTypeSlots (Obj : Type) where
  as_sequence : Option (Obj → PySequenceMethods Obj)
  as_mapping : Option (Obj → PyMappingMethods Obj)

/-- A runtime class: its name, an identity token (object identity of the
class object, used by `cls.is(...)` checks), and its method-resolution
order, most-derived first, the class itself included. -/
structure PyType (Obj : Type) where
  name : String
  id : Nat
  mro : List (PyTypeSlots Obj)

/-- Modelled from the spec: the type ancestry walker `mro_find_map` (defined
in the class-object model outside the given source) visits the ancestry
most-derived first and returns the first value supplied by an ancestor. -/
def mro_find_map {Obj β : Type} (mro : List (PyTypeSlots Obj))
    (f : PyTypeSlots Obj → Option β) : Option β :=
  mro.findSome? f

/-- The virtual machine, restricted to the collaborator interfaces consumed
by `sequence.rs`: class lookup and the distinguished type identities,
arithmetic operator dispatch (`_add`, `_iadd`, `_mul`, `_imul`) together
with the `PyArithmeticValue::from_object` test for the `NotImplemented`
sentinel, object constructors, the iteration protocol (an iterator is a
finite list of element results, each possibly an error), the generic
equality test `bool_eq`, and the platform constant `isize::MAX`. -/
structure VirtualMachine (Obj : Type) where
  classOf : Obj → PyType Obj
  dict_type_id : Nat
  tuple_type_id : Nat
  list_type_id : Nat
  isize_max : Nat
  add : Obj → Obj → PyResult Obj
  iadd : Obj → Obj → PyResult Obj
  mul : Obj → Obj → PyResult Obj
  imul : Obj → Obj → PyResult Obj
  is_not_implemented : Obj → Bool
  nat_to_obj : Nat → Obj
  int_to_obj : Int → Obj
  slice_to_obj : PySlice Obj → Obj
  get_iter : Obj → PyResult (List (PyResult Obj))
  bool_eq : Obj → Obj → PyResult Bool
  list_elems : Obj → List Obj
  new_tuple : List Obj → Obj

/-- The sequence view `PySequence`: the target object plus, when constructed
through `with_methods`, a caller-supplied method table that bypasses
dynamic resolution (the memoizing `OnceCell` is pure caching and has no
observable effect in a pure embedding). -/
structure PySequence (Obj : Type) where
  obj : Obj
  supplied : Option (PySequenceMethods Obj)

/-- `PySequence::from(obj)`: a view with lazily resolved methods. -/
def PySequence.from_obj {Obj : Type} (obj : Obj) : PySequence Obj :=
  { obj := obj, supplied := none }

/-- `PySequence::with_methods(obj, methods)`. -/
def PySequence.with_methods {Obj : Type} (obj : Obj)
    (m : PySequenceMethods Obj) : PySequence Obj :=
  { obj := obj, supplied := some m }

/-- `PySequence::methods_cow` / `methods`: resolution of the method table.
If the class is exactly the dictionary type the ancestry walk is skipped;
otherwise the first ancestor with an `as_sequence` producer supplies the
table; in every remaining case the shared `NOT_IMPLEMENTED` table is used. -/
def PySequence.methods {Obj : Type} (vm : VirtualMachine Obj)
    (s : PySequence Obj) : PySequenceMethods Obj :=
  match s.supplied with
  | some m => m
  | none =>
    let cls := vm.classOf s.obj
    if cls.id ≠ vm.dict_type_id then
      match mro_find_map cls.mro (fun x => x.as_sequence) with
      | some f => f s.obj
      | none => PySequenceMethods.not_implemented Obj
    else PySequenceMethods.not_implemented Obj

/-- `PySequence::has_protocol` (`PySequence_Check`): the `item` slot of the
resolved table is present. -/
def PySequence.has_protocol {Obj : Type} (vm : VirtualMachine Obj)
    (s : PySequence Obj) : Bool :=
  (PySequence.methods vm s).item.isSome

/-- Message of the `concat` / `inplace_concat` failure
(`'<type>' object can't be concatenated`). -/
def cant_concat_msg (ty : String) : String :=
  "\x27" ++ ty ++ "\x27 object can\x27t be concatenated"

/-- Message of the `repeat` / `inplace_repeat` failure
(`'<type>' object can't be repeated`). -/
def cant_repeat_msg (ty : String) : String :=
  "\x27" ++ ty ++ "\x27 object can\x27t be repeated"

/-- `PySequence::concat`: native `concat` slot, else — when both operands
have the protocol — the generic `_add` operator accepted when it reports
the pair handled, else the type error. -/
def PySequence.concat {Obj : Type} (vm : VirtualMachine Obj)
    (s : PySequence Obj) (other : Obj) : PyResult Obj :=
  match (PySequence.methods vm s).concat with
  | some f => f s.obj other
  | none =>
    if PySequence.has_protocol vm s
        && PySequence.has_protocol vm (PySequence.from_obj other) then
      match vm.add s.obj other with
      | .error e => .error e
      | .ok ret =>
        if vm.is_not_implemented ret then
          .error (.typeError (cant_concat_msg (vm.classOf s.obj).name))
        else .ok ret
    else .error (.typeError (cant_concat_msg (vm.classOf s.obj).name))

/-- `PySequence::repeat`: native `repeat` slot, else — when the receiver has
the protocol — the generic `_mul` operator on the receiver and the count
converted to an object, accepted when handled, else the type error. -/
def PySequence.seq_repeat {Obj : Type} (vm : VirtualMachine Obj)
    (s : PySequence Obj) (n : Nat) : PyResult Obj :=
  match (PySequence.methods vm s).«repeat» with
  | some f => f s.obj n
  | none =>
    if PySequence.has_protocol vm s then
      match vm.mul s.obj (vm.nat_to_obj n) with
      | .error e => .error e
      | .ok ret =>
        if vm.is_not_implemented ret then
          .error (.typeError (cant_repeat_msg (vm.classOf s.obj).name))
        else .ok ret
    else .error (.typeError (cant_repeat_msg (vm.classOf s.obj).name))

/-- `PySequence::inplace_concat`: `inplace_concat` slot, else `concat` slot,
else — when both operands have the protocol — `_iadd` accepted when
handled, else the same type error as `concat`. -/
def PySequence.inplace_concat {Obj : Type} (vm : VirtualMachine Obj)
    (s : PySequence Obj) (other : Obj) : PyResult Obj :=
  match (PySequence.methods vm s).inplace_concat with
  | some f => f s.obj other
  | none =>
    match (PySequence.methods vm s).concat with
    | some f => f s.obj other
    | none =>
      if PySequence.has_protocol vm s
          && PySequence.has_protocol vm (PySequence.from_obj other) then
        match vm.iadd s.obj other with
        | .error e => .error e
        | .ok ret =>
          if vm.is_not_implemented ret then
            .error (.typeError (cant_concat_msg (vm.classOf s.obj).name))
          else .ok ret
      else .error (.typeError (cant_concat_msg (vm.classOf s.obj).name))

/-- `PySequence::inplace_repeat`: `inplace_repeat` slot, else `repeat` slot,
else — when the receiver has the protocol — `_imul` accepted when handled,
else the same type error as `repeat`. -/
def PySequence.inplace_repeat {Obj : Type} (vm : VirtualMachine Obj)
    (s : PySequence Obj) (n : Nat) : PyResult Obj :=
  match (PySequence.methods vm s).inplace_repeat with
  | some f => f s.obj n
  | none =>
    match (PySequence.methods vm s).«repeat» with
    | some f => f s.obj n
    | none =>
      if PySequence.has_protocol vm s then
        match vm.imul s.obj (vm.nat_to_obj n) with
        | .error e => .error e
        | .ok ret =>
          if vm.is_not_implemented ret then
            .error (.typeError (cant_repeat_msg (vm.classOf s.obj).name))
          else .ok ret
      else .error (.typeError (cant_repeat_msg (vm.classOf s.obj).name))

/-- `PySequence::get_item`: native `item` slot only, no fallback. -/
def PySequence.get_item {Obj : Type} (vm : VirtualMachine Obj)
    (s : PySequence Obj) (i : Int) : PyResult Obj :=
  match (PySequence.methods vm s).item with
  | some f => f s.obj i
  | none =>
    .error (.typeError ("\x27" ++ (vm.classOf s.obj).name
      ++ "\x27 is not a sequence or does not support indexing"))

/-- Message of the `_ass_item` failure
(`'<type>' is not a sequence or doesn't support item <tail>`). -/
def not_item_msg (ty : String) (tail : String) : String :=
  "\x27" ++ ty ++ "\x27 is not a sequence or doesn\x27t support item " ++ tail

/-- `PySequence::_ass_item`: native `ass_item` slot only; the error wording
distinguishes assignment from deletion by the presence of the value. -/
def PySequence.ass_item_op {Obj : Type} (vm : VirtualMachine Obj)
    (s : PySequence Obj) (i : Int) (value : Option Obj) : PyResult Unit :=
  match (PySequence.methods vm s).ass_item with
  | some f => f s.obj i value
  | none =>
    .error (.typeError (not_item_msg (vm.classOf s.obj).name
      (if value.isSome then "assignment" else "deletion")))

/-- `PySequence::set_item`. -/
def PySequence.set_item {Obj : Type} (vm : VirtualMachine Obj)
    (s : PySequence Obj) (i : Int) (value : Obj) : PyResult Unit :=
  PySequence.ass_item_op vm s i (some value)

/-- `PySequence::del_item`. -/
def PySequence.del_item {Obj : Type} (vm : VirtualMachine Obj)
    (s : PySequence Obj) (i : Int) : PyResult Unit :=
  PySequence.ass_item_op vm s i none

/-- Message of the `get_slice` failure (`'<type>' object is unsliceable`). -/
def unsliceable_msg (ty : String) : String :=
  "\x27" ++ ty ++ "\x27 object is unsliceable"

/-- Message of the `_ass_slice` failure
(`'<type>' object doesn't support slice <tail>`). -/
def no_slice_msg (ty : String) (tail : String) : String :=
  "\x27" ++ ty ++ "\x27 object doesn\x27t support slice " ++ tail

/-- The slice object `(start, stop, step = none)` built by both slicing
paths. -/
def slice_arg {Obj : Type} (vm : VirtualMachine Obj)
    (start stop : Int) : Obj :=
  vm.slice_to_obj
    { start := some (vm.int_to_obj start),
      stop := vm.int_to_obj stop, step := none }

/-- `PySequence::get_slice`: locate the mapping protocol's `subscript` slot
through the ancestry walk and invoke it with the slice
`(start, stop, step = none)`; otherwise the `unsliceable` type error. -/
def PySequence.get_slice {Obj : Type} (vm : VirtualMachine Obj)
    (s : PySequence Obj) (start stop : Int) : PyResult Obj :=
  match mro_find_map (vm.classOf s.obj).mro (fun x => x.as_mapping) with
  | some f =>
    match (f s.obj).subscript with
    | some subscript =>
      subscript s.obj (slice_arg vm start stop)
    | none =>
      .error (.typeError (unsliceable_msg (vm.classOf s.obj).name))
  | none =>
    .error (.typeError (unsliceable_msg (vm.classOf s.obj).name))

/-- `PySequence::_ass_slice`: locate the mapping protocol's `ass_subscript`
slot and invoke it with the slice `(start, stop, step = none)` and the
optional value; otherwise the slice assignment/deletion type error. -/
def PySequence.ass_slice_op {Obj : Type} (vm : VirtualMachine Obj)
    (s : PySequence Obj) (start stop : Int) (value : Option Obj) :
    PyResult Unit :=
  match mro_find_map (vm.classOf s.obj).mro (fun x => x.as_mapping) with
  | some f =>
    match (f s.obj).ass_subscript with
    | some ass_subscript =>
      ass_subscript s.obj (slice_arg vm start stop) value
    | none =>
      .error (.typeError (no_slice_msg (vm.classOf s.obj).name
        (if value.isSome then "assignment" else "deletion")))
  | none =>
    .error (.typeError (no_slice_msg (vm.classOf s.obj).name
      (if value.isSome then "assignment" else "deletion")))

/-- `PySequence::set_slice`. -/
def PySequence.set_slice {Obj : Type} (vm : VirtualMachine Obj)
    (s : PySequence Obj) (start stop : Int) (value : Obj) : PyResult Unit :=
  PySequence.ass_slice_op vm s start stop (some value)

/-- `PySequence::del_slice`. -/
def PySequence.del_slice {Obj : Type} (vm : VirtualMachine Obj)
    (s : PySequence Obj) (start stop : Int) : PyResult Unit :=
  PySequence.ass_slice_op vm s start stop none

/-- The `try_collect` drain of an iterator: all elements in order, or the
first error, with nothing partial. -/
def try_collect {Obj : Type} : List (PyResult Obj) → PyResult (List Obj)
  | [] => .ok []
  | r :: rest =>
    match r with
    | .error e => .error e
    | .ok a =>
      match try_collect rest with
      | .error e => .error e
      | .ok l => .ok (a :: l)

/-- `PySequence::tuple`: identity fast path for exact tuple type, copy fast
path for exact list type, otherwise drain the object's iterator into a new
tuple, propagating any iteration error. -/
def PySequence.tuple {Obj : Type} (vm : VirtualMachine Obj)
    (s : PySequence Obj) : PyResult Obj :=
  if (vm.classOf s.obj).id = vm.tuple_type_id then .ok s.obj
  else if (vm.classOf s.obj).id = vm.list_type_id then
    .ok (vm.new_tuple (vm.list_elems s.obj))
  else
    match vm.get_iter s.obj with
    | .error e => .error e
    | .ok results =>
      match try_collect results with
      | .error e => .error e
      | .ok elems => .ok (vm.new_tuple elems)

/-- `PySequence::list`: always a fresh list extended by iterating the
source; the drain is the same first-error-propagating collection. -/
def PySequence.seq_list {Obj : Type} (vm : VirtualMachine Obj)
    (s : PySequence Obj) : PyResult (List Obj) :=
  match vm.get_iter s.obj with
  | .error e => .error e
  | .ok results => try_collect results

/-- `PySequence::contains`: native `contains` slot, else linear iteration
with the generic equality test, short-circuiting on the first match. -/
def contains_loop {Obj : Type} (vm : VirtualMachine Obj) (target : Obj) :
    List (PyResult Obj) → PyResult Bool
  | [] => .ok false
  | r :: rest =>
    match r with
    | .error e => .error e
    | .ok elem =>
      match vm.bool_eq elem target with
      | .error e => .error e
      | .ok true => .ok true
      | .ok false => contains_loop vm target rest

/-- `PySequence::contains`, dispatch part. -/
def PySequence.contains {Obj : Type} (vm : VirtualMachine Obj)
    (s : PySequence Obj) (target : Obj) : PyResult Bool :=
  match (PySequence.methods vm s).contains with
  | some f => f s.obj target
  | none =>
    match vm.get_iter s.obj with
    | .error e => .error e
    | .ok results => contains_loop vm target results

/-- Loop of `PySequence::count`: `n` matches so far; on a match the guard
`n == isize::MAX as usize` fails with the overflow error before the
increment. -/
def count_loop {Obj : Type} (vm : VirtualMachine Obj) (target : Obj)
    (n : Nat) : List (PyResult Obj) → PyResult Nat
  | [] => .ok n
  | r :: rest =>
    match r with
    | .error e => .error e
    | .ok elem =>
      match vm.bool_eq elem target with
      | .error e => .error e
      | .ok true =>
        if n = vm.isize_max then
          .error (.overflowError "index exceeds C integer size")
        else count_loop vm target (n + 1) rest
      | .ok false => count_loop vm target n rest

/-- `PySequence::count`: always iterates, never consults a slot. -/
def PySequence.count {Obj : Type} (vm : VirtualMachine Obj)
    (s : PySequence Obj) (target : Obj) : PyResult Nat :=
  match vm.get_iter s.obj with
  | .error e => .error e
  | .ok results => count_loop vm target 0 results

/-- Loop of `PySequence::index`: `index` starts at `-1`; at the top of each
iteration the guard `index == isize::MAX` fails with the overflow error,
then the index is incremented before the element is examined. -/
def index_loop {Obj : Type} (vm : VirtualMachine Obj) (target : Obj)
    (index : Int) : List (PyResult Obj) → PyResult Nat
  | [] => .error (.valueError "sequence.index(x): x not in sequence")
  | r :: rest =>
    if index = (vm.isize_max : Int) then
      .error (.overflowError "index exceeds C integer size")
    else
      match r with
      | .error e => .error e
      | .ok elem =>
        match vm.bool_eq elem target with
        | .error e => .error e
        | .ok true => .ok (index + 1).toNat
        | .ok false => index_loop vm target (index + 1) rest

/-- `PySequence::index`: always iterates, never consults a slot. -/
def PySequence.index {Obj : Type} (vm : VirtualMachine Obj)
    (s : PySequence Obj) (target : Obj) : PyResult Nat :=
  match vm.get_iter s.obj with
  | .error e => .error e
  | .ok results => index_loop vm target (-1) results

/-- Number of elements of a list that the generic equality test declares
equal to the target (elements whose test errs or answers false count 0). -/
def match_count {Obj : Type} (vm : VirtualMachine Obj) (target : Obj) :
    List Obj → Nat
  | [] => 0
  | x :: rest =>
    match vm.bool_eq x target with
    | .ok true => match_count vm target rest + 1
    | _ => match_count vm target rest

/-! Helper lemmas about the ancestry walk. -/

/-- The walk returns the value supplied by the first matching entry. -/
theorem findSome_append_first_some {α β : Type} (f : α → Option β)
    (pre : List α) (t : α) (post : List α) (v : β)
    (hpre : ∀ x ∈ pre, f x = none) (ht : f t = some v) :
    (pre ++ t :: post).findSome? f = some v := by
  induction pre with
  | nil => simp [List.findSome?, ht]
  | cons a pre ih =>
    have ha : f a = none := hpre a (by simp)
    simpa [List.findSome?, ha] using
      ih (fun x hx => hpre x (by simp [hx]))

/-- The walk returns nothing when no entry matches. -/
theorem findSome_all_none {α β : Type} (f : α → Option β)
    (l : List α) (hall : ∀ x ∈ l, f x = none) :
    l.findSome? f = none := by
  induction l with
  | nil => simp [List.findSome?]
  | cons a l ih =>
    have ha : f a = none := hall a (by simp)
    simpa [List.findSome?, ha] using
      ih (fun x hx => hall x (by simp [hx]))

/-- Unfolding of `methods` on a lazily resolved view. -/
theorem methods_from_obj {Obj : Type} (vm : VirtualMachine Obj) (obj : Obj) :
    PySequence.methods vm (PySequence.from_obj obj) =
      (if (vm.classOf obj).id ≠ vm.dict_type_id then
        match mro_find_map (vm.classOf obj).mro (fun x => x.as_sequence) with
        | some f => f obj
        | none => PySequenceMethods.not_implemented Obj
      else PySequenceMethods.not_implemented Obj) := rfl

/-- Claim C2: method-table resolution walks the type ancestry most-derived
first and takes the table of the first ancestor supplying an `as_sequence`
producer; when the class is exactly the dictionary type the walk is skipped,
and whenever the walk is skipped or finds no supplier the shared all-empty
table is used — hence `has_protocol` is false for every dictionary
instance. -/
theorem claim_C2 {Obj : Type} (vm : VirtualMachine Obj) (obj : Obj) :
    ((vm.classOf obj).id = vm.dict_type_id →
      PySequence.methods vm (PySequence.from_obj obj)
          = PySequenceMethods.not_implemented Obj
        ∧ PySequence.has_protocol vm (PySequence.from_obj obj) = false)
    ∧ (∀ pre t post f, (vm.classOf obj).id ≠ vm.dict_type_id →
        (vm.classOf obj).mro = pre ++ t :: post →
        (∀ x ∈ pre, x.as_sequence = none) →
        t.as_sequence = some f →
        PySequence.methods vm (PySequence.from_obj obj) = f obj)
    ∧ ((∀ x ∈ (vm.classOf obj).mro, x.as_sequence = none) →
        PySequence.methods vm (PySequence.from_obj obj)
          = PySequenceMethods.not_implemented Obj) := by
  refine ⟨?_, ?_, ?_⟩
  · intro h
    have hm : PySequence.methods vm (PySequence.from_obj obj)
        = PySequenceMethods.not_implemented Obj := by
      rw [methods_from_obj]
      simp [h]
    refine ⟨hm, ?_⟩
    rw [PySequence.has_protocol, hm]
    rfl
  · intro pre t post f hne hmro hpre ht
    have hfs : mro_find_map (vm.classOf obj).mro (fun x => x.as_sequence)
        = some f := by
      rw [mro_find_map, hmro]
      exact findSome_append_first_some _ pre t post f hpre ht
    rw [methods_from_obj, if_pos hne, hfs]
  · intro hall
    by_cases hd : (vm.classOf obj).id = vm.dict_type_id
    · rw [methods_from_obj]
      simp [hd]
    · have hfs : mro_find_map (vm.classOf obj).mro (fun x => x.as_sequence)
          = none := findSome_all_none _ _ hall
      rw [methods_from_obj, if_pos hd, hfs]

/-! Concrete witness world: objects are natural numbers. -/

/-- An ancestry entry supplying nothing. -/
def no_slots : PyTypeSlots Nat := { as_sequence := none, as_mapping := none }

/-- A sequence table exposing only the `item` slot. -/
def item_table : PySequenceMethods Nat :=
  { PySequenceMethods.not_implemented Nat with
    item := some (fun o i => .ok (o + i.toNat)) }

/-- An ancestry entry supplying `item_table`. -/
def item_slots : PyTypeSlots Nat :=
  { as_sequence := some (fun _ => item_table), as_mapping := none }

/-- A base concrete machine over `Nat` objects: every object's class has an
empty first ancestor and then an ancestor supplying `item_table`, operators
are trivial, iteration is empty, equality is numeric equality. -/
def baseVM : VirtualMachine Nat :=
  { classOf := fun _ => { name := "thing", id := 1, mro := [no_slots, item_slots] }
    dict_type_id := 100
    tuple_type_id := 101
    list_type_id := 102
    isize_max := 3
    add := fun a b => .ok (a + b)
    iadd := fun a b => .ok (a + b)
    mul := fun a b => .ok (a * b)
    imul := fun a b => .ok (a * b)
    is_not_implemented := fun _ => false
    nat_to_obj := fun n => n
    int_to_obj := fun i => i.toNat
    slice_to_obj := fun sl => 1000 + sl.stop
    get_iter := fun _ => .ok []
    bool_eq := fun a b => .ok (a == b)
    list_elems := fun _ => []
    new_tuple := fun l => 2000 + l.length }

/-- A machine whose every object is a dictionary instance, with an ancestry
that would supply `item_table` if the walk ran. -/
def dictVM : VirtualMachine Nat :=
  { baseVM with
    classOf := fun _ => { name := "dict", id := 100, mro := [item_slots] } }

/-- Witness for C2: on `baseVM`, resolution skips the empty first ancestor
and takes `item_table` from the second; on `dictVM`, the walk is skipped
although an ancestor would supply a table, and `has_protocol` is false. -/
theorem claim_C2_witness :
    PySequence.methods baseVM (PySequence.from_obj 0) = item_table
      ∧ PySequence.has_protocol dictVM (PySequence.from_obj 0) = false :=
  ⟨(claim_C2 baseVM 0).2.1 [no_slots] item_slots [] (fun _ => item_table)
      (by decide) rfl
      (by intro x hx; simp only [List.mem_singleton] at hx; subst hx; rfl) rfl,
    ((claim_C2 dictVM 0).1 rfl).2⟩

/-- Claim C1: `concat` tries exactly this priority order: a present native
`concat` slot wins; otherwise, iff both operands satisfy `has_protocol`, the
generic addition operator is invoked and its result returned when the
machinery reports the pair handled (a genuine operator error propagates);
in every remaining case `concat` fails with the type error
`'<type>' object can't be concatenated` naming the receiver's type. -/
theorem claim_C1 {Obj : Type} (vm : VirtualMachine Obj) (s : PySequence Obj)
    (other : Obj) :
    (∀ f, (PySequence.methods vm s).concat = some f →
        PySequence.concat vm s other = f s.obj other)
    ∧ ((PySequence.methods vm s).concat = none →
        PySequence.has_protocol vm s = true →
        PySequence.has_protocol vm (PySequence.from_obj other) = true →
        ∀ r, vm.add s.obj other = .ok r → vm.is_not_implemented r = false →
          PySequence.concat vm s other = .ok r)
    ∧ ((PySequence.methods vm s).concat = none →
        PySequence.has_protocol vm s = true →
        PySequence.has_protocol vm (PySequence.from_obj other) = true →
        ∀ e, vm.add s.obj other = .error e →
          PySequence.concat vm s other = .error e)
    ∧ ((PySequence.methods vm s).concat = none →
        (PySequence.has_protocol vm s = false
          ∨ PySequence.has_protocol vm (PySequence.from_obj other) = false
          ∨ ∃ r, vm.add s.obj other = .ok r
              ∧ vm.is_not_implemented r = true) →
        PySequence.concat vm s other
          = .error (.typeError (cant_concat_msg (vm.classOf s.obj).name))) := by
  refine ⟨?_, ?_, ?_, ?_⟩
  · intro f h
    simp [PySequence.concat, h]
  · intro h h1 h2 r hr hni
    simp [PySequence.concat, h, h1, h2, hr, hni]
  · intro h h1 h2 e he
    simp [PySequence.concat, h, h1, h2, he]
  · intro h hcase
    rcases hcase with h1 | h2 | ⟨r, hr, hni⟩
    · simp [PySequence.concat, h, h1]
    · simp [PySequence.concat, h, h2]
    · by_cases h1 : PySequence.has_protocol vm s
      · by_cases h2 : PySequence.has_protocol vm (PySequence.from_obj other)
        · simp [PySequence.concat, h, h1, h2, hr, hni]
        · simp [PySequence.concat, h, Bool.of_not_eq_true h2]
      · simp [PySequence.concat, h, Bool.of_not_eq_true h1]

/-- Witness for C1: on `baseVM` the resolved table has no `concat` slot,
both operands have the protocol, and the addition operator handles the
pair, so `concat 2 3` falls back to `2 + 3`. -/
theorem claim_C1_witness :
    PySequence.concat baseVM (PySequence.from_obj 2) 3 = .ok 5 :=
  (claim_C1 baseVM (PySequence.from_obj 2) 3).2.1 rfl rfl rfl 5 rfl rfl

/-- Claim C3: `inplace_concat` tries the `inplace_concat` slot, then the
`concat` slot, then — only when both operands satisfy `has_protocol` — the
generic in-place-addition operator accepted only if handled, and otherwise
fails with the same `object can't be concatenated` error as `concat`;
`inplace_repeat` follows the same layering over `inplace_repeat`, then
`repeat`, then — when the receiver satisfies `has_protocol` — the generic
in-place-multiplication operator, otherwise failing with the same
`object can't be repeated` error as `repeat`. -/
theorem claim_C3 {Obj : Type} (vm : VirtualMachine Obj) (s : PySequence Obj)
    (other : Obj) (n : Nat) :
    ((∀ f, (PySequence.methods vm s).inplace_concat = some f →
        PySequence.inplace_concat vm s other = f s.obj other)
      ∧ (∀ f, (PySequence.methods vm s).inplace_concat = none →
          (PySequence.methods vm s).concat = some f →
          PySequence.inplace_concat vm s other = f s.obj other)
      ∧ ((PySequence.methods vm s).inplace_concat = none →
          (PySequence.methods vm s).concat = none →
          PySequence.has_protocol vm s = true →
          PySequence.has_protocol vm (PySequence.from_obj other) = true →
          ∀ r, vm.iadd s.obj other = .ok r →
            vm.is_not_implemented r = false →
            PySequence.inplace_concat vm s other = .ok r)
      ∧ ((PySequence.methods vm s).inplace_concat = none →
          (PySequence.methods vm s).concat = none →
          (PySequence.has_protocol vm s = false
            ∨ PySequence.has_protocol vm (PySequence.from_obj other) = false
            ∨ ∃ r, vm.iadd s.obj other = .ok r
                ∧ vm.is_not_implemented r = true) →
          PySequence.inplace_concat vm s other
            = .error (.typeError (cant_concat_msg (vm.classOf s.obj).name))))
    ∧ ((∀ f, (PySequence.methods vm s).inplace_repeat = some f →
        PySequence.inplace_repeat vm s n = f s.obj n)
      ∧ (∀ f, (PySequence.methods vm s).inplace_repeat = none →
          (PySequence.methods vm s).«repeat» = some f →
          PySequence.inplace_repeat vm s n = f s.obj n)
      ∧ ((PySequence.methods vm s).inplace_repeat = none →
          (PySequence.methods vm s).«repeat» = none →
          PySequence.has_protocol vm s = true →
          ∀ r, vm.imul s.obj (vm.nat_to_obj n) = .ok r →
            vm.is_not_implemented r = false →
            PySequence.inplace_repeat vm s n = .ok r)
      ∧ ((PySequence.methods vm s).inplace_repeat = none →
          (PySequence.methods vm s).«repeat» = none →
          (PySequence.has_protocol vm s = false
            ∨ ∃ r, vm.imul s.obj (vm.nat_to_obj n) = .ok r
                ∧ vm.is_not_implemented r = true) →
          PySequence.inplace_repeat vm s n
            = .error (.typeError (cant_repeat_msg (vm.classOf s.obj).name)))) := by
  constructor
  · refine ⟨?_, ?_, ?_, ?_⟩
    · intro f h
      simp [PySequence.inplace_concat, h]
    · intro f h hc
      simp [PySequence.inplace_concat, h, hc]
    · intro h hc h1 h2 r hr hni
      simp [PySequence.inplace_concat, h, hc, h1, h2, hr, hni]
    · intro h hc hcase
      rcases hcase with h1 | h2 | ⟨r, hr, hni⟩
      · simp [PySequence.inplace_concat, h, hc, h1]
      · simp [PySequence.inplace_concat, h, hc, h2]
      · by_cases h1 : PySequence.has_protocol vm s
        · by_cases h2 : PySequence.has_protocol vm (PySequence.from_obj other)
          · simp [PySequence.inplace_concat, h, hc, h1, h2, hr, hni]
          · simp [PySequence.inplace_concat, h, hc, Bool.of_not_eq_true h2]
        · simp [PySequence.inplace_concat, h, hc, Bool.of_not_eq_true h1]
  · refine ⟨?_, ?_, ?_, ?_⟩
    · intro f h
      simp [PySequence.inplace_repeat, h]
    · intro f h hc
      simp [PySequence.inplace_repeat, h, hc]
    · intro h hc h1 r hr hni
      simp [PySequence.inplace_repeat, h, hc, h1, hr, hni]
    · intro h hc hcase
      rcases hcase with h1 | ⟨r, hr, hni⟩
      · simp [PySequence.inplace_repeat, h, hc, h1]
      · by_cases h1 : PySequence.has_protocol vm s
        · simp [PySequence.inplace_repeat, h, hc, h1, hr, hni]
        · simp [PySequence.inplace_repeat, h, hc, Bool.of_not_eq_true h1]

/-- Witness for C3: on `baseVM` the resolved table has neither in-place nor
plain slots, so `inplace_concat 2 3` falls back to in-place addition and
`inplace_repeat 2 3` to in-place multiplication. -/
theorem claim_C3_witness :
    PySequence.inplace_concat baseVM (PySequence.from_obj 2) 3 = .ok 5
      ∧ PySequence.inplace_repeat baseVM (PySequence.from_obj 2) 3 = .ok 6 :=
  ⟨(claim_C3 baseVM (PySequence.from_obj 2) 3 3).1.2.2.1 rfl rfl rfl rfl
      5 rfl rfl,
    (claim_C3 baseVM (PySequence.from_obj 2) 3 3).2.2.2.1 rfl rfl rfl
      6 rfl rfl⟩

/-- Claim C8: when the resolved table lacks the `ass_item` slot, `set_item`
and `del_item` both fail with a type error, and the two messages are
identical except for the trailing word — `assignment` when a value was
supplied, `deletion` when not. -/
theorem claim_C8 {Obj : Type} (vm : VirtualMachine Obj) (s : PySequence Obj)
    (i : Int) (v : Obj)
    (h : (PySequence.methods vm s).ass_item = none) :
    PySequence.set_item vm s i v
        = .error (.typeError (not_item_msg (vm.classOf s.obj).name "assignment"))
      ∧ PySequence.del_item vm s i
        = .error (.typeError (not_item_msg (vm.classOf s.obj).name "deletion"))
      ∧ ∃ m : String,
          PySequence.set_item vm s i v = .error (.typeError (m ++ "assignment"))
            ∧ PySequence.del_item vm s i = .error (.typeError (m ++ "deletion")) := by
  have hset : PySequence.set_item vm s i v
      = .error (.typeError (not_item_msg (vm.classOf s.obj).name "assignment")) := by
    simp [PySequence.set_item, PySequence.ass_item_op, h]
  have hdel : PySequence.del_item vm s i
      = .error (.typeError (not_item_msg (vm.classOf s.obj).name "deletion")) := by
    simp [PySequence.del_item, PySequence.ass_item_op, h]
  refine ⟨hset, hdel, "\x27" ++ (vm.classOf s.obj).name
    ++ "\x27 is not a sequence or doesn\x27t support item ", ?_, ?_⟩
  · rw [hset]; rfl
  · rw [hdel]; rfl

/-- Witness for C8: on `baseVM` the resolved table has no `ass_item` slot,
so item assignment and deletion fail with the two messages. -/
theorem claim_C8_witness :
    PySequence.set_item baseVM (PySequence.from_obj 0) 1 7
        = .error (.typeError (not_item_msg "thing" "assignment"))
      ∧ PySequence.del_item baseVM (PySequence.from_obj 0) 1
        = .error (.typeError (not_item_msg "thing" "deletion")) :=
  ⟨(claim_C8 baseVM (PySequence.from_obj 0) 1 7 rfl).1,
    (claim_C8 baseVM (PySequence.from_obj 0) 1 7 rfl).2.1⟩

/-- Claim C9: `tuple()` returns the object itself when its exact class is
the tuple type; when the exact class is the list type it returns a new tuple
copied from the list's backing storage; otherwise it drains the object's
iterator into a new tuple, propagating any iteration error instead of
producing a partial result. -/
theorem claim_C9 {Obj : Type} (vm : VirtualMachine Obj) (obj : Obj) :
    ((vm.classOf obj).id = vm.tuple_type_id →
      PySequence.tuple vm (PySequence.from_obj obj) = .ok obj)
    ∧ ((vm.classOf obj).id ≠ vm.tuple_type_id →
        (vm.classOf obj).id = vm.list_type_id →
        PySequence.tuple vm (PySequence.from_obj obj)
          = .ok (vm.new_tuple (vm.list_elems obj)))
    ∧ ((vm.classOf obj).id ≠ vm.tuple_type_id →
        (vm.classOf obj).id ≠ vm.list_type_id →
        (∀ e, vm.get_iter obj = .error e →
          PySequence.tuple vm (PySequence.from_obj obj) = .error e)
        ∧ (∀ results, vm.get_iter obj = .ok results →
            (∀ e, try_collect results = .error e →
              PySequence.tuple vm (PySequence.from_obj obj) = .error e)
            ∧ (∀ elems, try_collect results = .ok elems →
                PySequence.tuple vm (PySequence.from_obj obj)
                  = .ok (vm.new_tuple elems))))
    ∧ (∀ l : List Obj, try_collect (l.map Except.ok) = .ok l)
    ∧ (∀ (pre : List Obj) (e : PyErr) (rest : List (PyResult Obj)),
        try_collect (pre.map Except.ok ++ Except.error e :: rest)
          = .error e) := by
  refine ⟨?_, ?_, ?_, ?_, ?_⟩
  · intro h
    simp [PySequence.tuple, PySequence.from_obj, h]
  · intro ht hl
    simp only [PySequence.tuple, PySequence.from_obj]
    rw [if_neg ht, if_pos hl]
  · intro ht hl
    constructor
    · intro e he
      simp [PySequence.tuple, PySequence.from_obj, ht, hl, he]
    · intro results hr
      constructor
      · intro e he
        simp [PySequence.tuple, PySequence.from_obj, ht, hl, hr, he]
      · intro elems he
        simp [PySequence.tuple, PySequence.from_obj, ht, hl, hr, he]
  · intro l
    induction l with
    | nil => rfl
    | cons a l ih => simp [try_collect, ih]
  · intro pre e rest
    induction pre with
    | nil => rfl
    | cons a pre ih => simp [try_collect, ih]

/-- A machine whose every object is a tuple instance. -/
def tupleVM : VirtualMachine Nat :=
  { baseVM with
    classOf := fun _ => { name := "tuple", id := 101, mro := [] } }

/-- A machine whose every object is a list instance with backing storage
`[5, 6]`. -/
def listVM : VirtualMachine Nat :=
  { baseVM with
    classOf := fun _ => { name := "list", id := 102, mro := [] }
    list_elems := fun _ => [5, 6] }

/-- A machine whose objects iterate as `[ok 7, ok 8]`. -/
def iterVM : VirtualMachine Nat :=
  { baseVM with get_iter := fun _ => .ok [.ok 7, .ok 8] }

/-- Witness for C9: the identity fast path on a tuple instance, the copying
fast path on a list instance, and the iterator drain on a generic object. -/
theorem claim_C9_witness :
    PySequence.tuple tupleVM (PySequence.from_obj 9) = .ok 9
      ∧ PySequence.tuple listVM (PySequence.from_obj 9)
          = .ok (listVM.new_tuple [5, 6])
      ∧ PySequence.tuple iterVM (PySequence.from_obj 9)
          = .ok (iterVM.new_tuple [7, 8]) :=
  ⟨(claim_C9 tupleVM 9).1 rfl,
    (claim_C9 listVM 9).2.1 (by decide) rfl,
    ((((claim_C9 iterVM 9).2.2.1 (by decide) (by decide)).2
        [.ok 7, .ok 8] rfl).2 [7, 8] rfl)⟩

/-- The walk's result depends only on the projections of the entries. -/
theorem findSome_congr_of_map_eq {α β γ : Type} (f : α → Option γ)
    (g : β → Option γ) (l₁ : List α) (l₂ : List β)
    (h : l₁.map f = l₂.map g) :
    l₁.findSome? f = l₂.findSome? g := by
  induction l₁ generalizing l₂ with
  | nil =>
    cases l₂ with
    | nil => rfl
    | cons b l₂ => simp at h
  | cons a l₁ ih =>
    cases l₂ with
    | nil => simp at h
    | cons b l₂ =>
      simp only [List.map_cons, List.cons.injEq] at h
      cases hg : g b with
      | some v => simp [List.findSome?, h.1, hg]
      | none => simp [List.findSome?, h.1, hg, ih l₂ h.2]

/-- Claim C7: `get_slice`, `set_slice` and `del_slice` succeed only by
locating the mapping protocol's subscript (read) or subscript-assignment
(write/delete) slot through the ancestry walk and invoking it with the
constructed slice `(start, stop, step = none)`; the sequence method table is
never consulted (the results are invariant under any change of the
`as_sequence` entries); when the mapping slot is absent the read path fails
with `'<type>' object is unsliceable` and the write/delete path with
`doesn't support slice assignment` / `deletion` according to whether a
value was supplied. -/
theorem claim_C7 {Obj : Type} (vm : VirtualMachine Obj) (obj : Obj)
    (start stop : Int) (v : Obj) :
    (∀ f sub,
      mro_find_map (vm.classOf obj).mro (fun x => x.as_mapping) = some f →
      (f obj).subscript = some sub →
      PySequence.get_slice vm (PySequence.from_obj obj) start stop
        = sub obj (slice_arg vm start stop))
    ∧ (∀ f asub,
        mro_find_map (vm.classOf obj).mro (fun x => x.as_mapping) = some f →
        (f obj).ass_subscript = some asub →
        PySequence.set_slice vm (PySequence.from_obj obj) start stop v
            = asub obj (slice_arg vm start stop) (some v)
          ∧ PySequence.del_slice vm (PySequence.from_obj obj) start stop
            = asub obj (slice_arg vm start stop) none)
    ∧ ((mro_find_map (vm.classOf obj).mro (fun x => x.as_mapping) = none
          ∨ ∃ f, mro_find_map (vm.classOf obj).mro (fun x => x.as_mapping)
                = some f
              ∧ (f obj).subscript = none) →
        PySequence.get_slice vm (PySequence.from_obj obj) start stop
          = .error (.typeError (unsliceable_msg (vm.classOf obj).name)))
    ∧ ((mro_find_map (vm.classOf obj).mro (fun x => x.as_mapping) = none
          ∨ ∃ f, mro_find_map (vm.classOf obj).mro (fun x => x.as_mapping)
                = some f
              ∧ (f obj).ass_subscript = none) →
        PySequence.set_slice vm (PySequence.from_obj obj) start stop v
            = .error (.typeError (no_slice_msg (vm.classOf obj).name
                "assignment"))
          ∧ PySequence.del_slice vm (PySequence.from_obj obj) start stop
            = .error (.typeError (no_slice_msg (vm.classOf obj).name
                "deletion")))
    ∧ (∀ vm₂ : VirtualMachine Obj,
        (vm₂.classOf obj).name = (vm.classOf obj).name →
        (vm₂.classOf obj).mro.map PyTypeSlots.as_mapping
          = (vm.classOf obj).mro.map PyTypeSlots.as_mapping →
        vm₂.int_to_obj = vm.int_to_obj →
        vm₂.slice_to_obj = vm.slice_to_obj →
        PySequence.get_slice vm₂ (PySequence.from_obj obj) start stop
            = PySequence.get_slice vm (PySequence.from_obj obj) start stop
          ∧ (∀ w, PySequence.set_slice vm₂ (PySequence.from_obj obj) start stop w
              = PySequence.set_slice vm (PySequence.from_obj obj) start stop w)
          ∧ PySequence.del_slice vm₂ (PySequence.from_obj obj) start stop
            = PySequence.del_slice vm (PySequence.from_obj obj) start stop) := by
  refine ⟨?_, ?_, ?_, ?_, ?_⟩
  · intro f sub hf hs
    simp [PySequence.get_slice, PySequence.from_obj, hf, hs]
  · intro f asub hf hs
    constructor
    · simp [PySequence.set_slice, PySequence.ass_slice_op,
        PySequence.from_obj, hf, hs]
    · simp [PySequence.del_slice, PySequence.ass_slice_op,
        PySequence.from_obj, hf, hs]
  · intro hcase
    rcases hcase with h | ⟨f, hf, hs⟩
    · simp [PySequence.get_slice, PySequence.from_obj, h]
    · simp [PySequence.get_slice, PySequence.from_obj, hf, hs]
  · intro hcase
    rcases hcase with h | ⟨f, hf, hs⟩
    · constructor
      · simp [PySequence.set_slice, PySequence.ass_slice_op,
          PySequence.from_obj, h]
      · simp [PySequence.del_slice, PySequence.ass_slice_op,
          PySequence.from_obj, h]
    · constructor
      · simp [PySequence.set_slice, PySequence.ass_slice_op,
          PySequence.from_obj, hf, hs]
      · simp [PySequence.del_slice, PySequence.ass_slice_op,
          PySequence.from_obj, hf, hs]
  · intro vm₂ hname hmro hint hslice
    have hfind : mro_find_map (vm₂.classOf obj).mro (fun x => x.as_mapping)
        = mro_find_map (vm.classOf obj).mro (fun x => x.as_mapping) := by
      rw [mro_find_map, mro_find_map]
      exact findSome_congr_of_map_eq _ _ _ _ hmro
    have harg : slice_arg vm₂ start stop = slice_arg vm start stop := by
      simp [slice_arg, hint, hslice]
    refine ⟨?_, ?_, ?_⟩
    · simp only [PySequence.get_slice, PySequence.from_obj, hfind, harg, hname]
    · intro w
      simp only [PySequence.set_slice, PySequence.ass_slice_op,
        PySequence.from_obj, hfind, harg, hname]
    · simp only [PySequence.del_slice, PySequence.ass_slice_op,
        PySequence.from_obj, hfind, harg, hname]

/-- A mapping table whose subscript encodes receiver and key. -/
def map_table : PyMappingMethods Nat :=
  { subscript := some (fun o k => .ok (o * 10000 + k)),
    ass_subscript := some (fun _ _ _ => .ok ()) }

/-- A machine whose every object's class supplies both a sequence table and
a mapping table. -/
def mapVM : VirtualMachine Nat :=
  { baseVM with
    classOf := fun _ =>
      { name := "mappy", id := 7,
        mro := [{ as_sequence := some (fun _ => item_table),
                  as_mapping := some (fun _ => map_table) }] } }

/-- Witness for C7: on `mapVM` the slice read goes through the mapping
subscript slot with the constructed slice object; on `baseVM` (whose types
have `item` but no mapping slot) slicing fails as unsliceable. -/
theorem claim_C7_witness :
    PySequence.get_slice mapVM (PySequence.from_obj 3) 1 2 = .ok 31002
      ∧ PySequence.get_slice baseVM (PySequence.from_obj 3) 1 2
          = .error (.typeError (unsliceable_msg "thing")) :=
  ⟨(claim_C7 mapVM 3 1 2 0).1 (fun _ => map_table)
      (fun o k => .ok (o * 10000 + k)) rfl rfl,
    (claim_C7 baseVM 3 1 2 0).2.2.1 (Or.inl rfl)⟩

/-- The count loop depends only on the equality test and the overflow
bound. -/
theorem count_loop_congr {Obj : Type} (vm₁ vm₂ : VirtualMachine Obj)
    (target : Obj) (heq : vm₁.bool_eq = vm₂.bool_eq)
    (hmax : vm₁.isize_max = vm₂.isize_max) :
    ∀ (l : List (PyResult Obj)) (n : Nat),
      count_loop vm₁ target n l = count_loop vm₂ target n l := by
  intro l
  induction l with
  | nil => intro n; rfl
  | cons r rest ih =>
    intro n
    cases r with
    | error e => simp [count_loop]
    | ok elem =>
      cases hb : vm₂.bool_eq elem target with
      | error e => simp [count_loop, heq, hb]
      | ok b =>
        cases b with
        | false =>
          simp only [count_loop, heq, hb]
          exact ih n
        | true =>
          simp only [count_loop, heq, hb, hmax]
          by_cases h : n = vm₂.isize_max
          · simp [h]
          · simp only [if_neg h]
            exact ih (n + 1)

/-- The index loop depends only on the equality test and the overflow
bound. -/
theorem index_loop_congr {Obj : Type} (vm₁ vm₂ : VirtualMachine Obj)
    (target : Obj) (heq : vm₁.bool_eq = vm₂.bool_eq)
    (hmax : vm₁.isize_max = vm₂.isize_max) :
    ∀ (l : List (PyResult Obj)) (i : Int),
      index_loop vm₁ target i l = index_loop vm₂ target i l := by
  intro l
  induction l with
  | nil => intro i; rfl
  | cons r rest ih =>
    intro i
    by_cases h : i = (vm₂.isize_max : Int)
    · simp [index_loop, hmax, h]
    · cases r with
      | error e => simp [index_loop, hmax, if_neg h]
      | ok elem =>
        cases hb : vm₂.bool_eq elem target with
        | error e => simp [index_loop, hmax, if_neg h, heq, hb]
        | ok b =>
          cases b with
          | true => simp [index_loop, hmax, if_neg h, heq, hb]
          | false =>
            simp only [index_loop, hmax, if_neg h, heq, hb]
            exact ih (i + 1)

/-- Claim C5: `count` and `index` are computed solely by draining the
object's iterator and applying the generic equality test to each element:
any two machines that agree on the object's iterator, on the equality test
and on the overflow bound compute the same `count` and `index`, however
their method tables — in particular their `contains`, `item` and `length`
slots — differ. -/
theorem claim_C5 {Obj : Type} (vm₁ vm₂ : VirtualMachine Obj)
    (obj target : Obj)
    (hiter : vm₁.get_iter obj = vm₂.get_iter obj)
    (heq : vm₁.bool_eq = vm₂.bool_eq)
    (hmax : vm₁.isize_max = vm₂.isize_max) :
    PySequence.count vm₁ (PySequence.from_obj obj) target
        = PySequence.count vm₂ (PySequence.from_obj obj) target
      ∧ PySequence.index vm₁ (PySequence.from_obj obj) target
        = PySequence.index vm₂ (PySequence.from_obj obj) target := by
  constructor
  · simp only [PySequence.count, PySequence.from_obj, hiter]
    cases h : vm₂.get_iter obj with
    | error e => rfl
    | ok results => exact count_loop_congr vm₁ vm₂ target heq hmax results 0
  · simp only [PySequence.index, PySequence.from_obj, hiter]
    cases h : vm₂.get_iter obj with
    | error e => rfl
    | ok results => exact index_loop_congr vm₁ vm₂ target heq hmax results (-1)

/-- A sequence table whose `contains` slot always answers true, differently
from linear iteration. -/
def contains_table : PySequenceMethods Nat :=
  { item_table with contains := some (fun _ _ => .ok true) }

/-- A machine identical to `iterVM` except that its types expose the
always-true `contains` slot. -/
def slotVM : VirtualMachine Nat :=
  { iterVM with
    classOf := fun _ =>
      { name := "branded", id := 9,
        mro := [{ as_sequence := some (fun _ => contains_table),
                  as_mapping := none }] } }

/-- Witness for C5: `iterVM` and `slotVM` differ precisely in their method
tables (the latter's `contains` slot would always answer true), yet `count`
and `index` agree on them. -/
theorem claim_C5_witness :
    PySequence.count iterVM (PySequence.from_obj 0) 7
        = PySequence.count slotVM (PySequence.from_obj 0) 7
      ∧ PySequence.index iterVM (PySequence.from_obj 0) 7
        = PySequence.index slotVM (PySequence.from_obj 0) 7 :=
  claim_C5 iterVM slotVM 0 7 rfl rfl rfl

/-- The index loop returns the not-found value error on a list of ordinary
elements none of which matches, as long as the counter cannot reach the
overflow bound. -/
theorem index_loop_no_match {Obj : Type} (vm : VirtualMachine Obj)
    (target : Obj) :
    ∀ (l : List Obj) (i : Int),
      (∀ x ∈ l, vm.bool_eq x target = .ok false) →
      i + l.length ≤ (vm.isize_max : Int) →
      index_loop vm target i (l.map Except.ok)
        = .error (.valueError "sequence.index(x): x not in sequence") := by
  intro l
  induction l with
  | nil => intro i h hlen; rfl
  | cons a l ih =>
    intro i h hlen
    simp only [List.length_cons] at hlen
    have hne : i ≠ (vm.isize_max : Int) := by
      push_cast at hlen
      omega
    have ha : vm.bool_eq a target = .ok false := h a (by simp)
    simp only [List.map_cons, index_loop, if_neg hne, ha]
    refine ih (i + 1) (fun x hx => h x (by simp [hx])) ?_
    push_cast at hlen ⊢
    omega

/-- Claim C6: on an object whose iteration yields `[a, b, c]` where `a` does
not compare equal to the target and `b` does, `index` returns `1`; on an
object whose iterator is exhausted with no element comparing equal to the
target, `index` fails with the value error whose message is exactly
`sequence.index(x): x not in sequence`. -/
theorem claim_C6 {Obj : Type} (vm : VirtualMachine Obj)
    (obj a b c target : Obj) :
    (vm.get_iter obj = .ok [.ok a, .ok b, .ok c] →
      vm.bool_eq a target = .ok false →
      vm.bool_eq b target = .ok true →
      1 ≤ vm.isize_max →
      PySequence.index vm (PySequence.from_obj obj) target = .ok 1)
    ∧ (∀ l : List Obj, vm.get_iter obj = .ok (l.map Except.ok) →
        (∀ x ∈ l, vm.bool_eq x target = .ok false) →
        l.length ≤ vm.isize_max + 1 →
        PySequence.index vm (PySequence.from_obj obj) target
          = .error (.valueError "sequence.index(x): x not in sequence")) := by
  constructor
  · intro hiter ha hb hmax
    have h1 : (-1 : Int) ≠ (vm.isize_max : Int) := by
      have : (0 : Int) ≤ (vm.isize_max : Int) := Int.natCast_nonneg _
      omega
    have h2 : (-1 : Int) + 1 ≠ (vm.isize_max : Int) := by
      have : (1 : Int) ≤ (vm.isize_max : Int) := by exact_mod_cast hmax
      omega
    simp only [PySequence.index, PySequence.from_obj, hiter, index_loop,
      if_neg h1, if_neg h2, ha, hb]
    norm_num
  · intro l hiter hall hlen
    simp only [PySequence.index, PySequence.from_obj, hiter]
    refine index_loop_no_match vm target l (-1) hall ?_
    omega

/-- A machine whose objects iterate as `[ok 10, ok 11, ok 12]`. -/
def vmC6 : VirtualMachine Nat :=
  { baseVM with get_iter := fun _ => .ok [.ok 10, .ok 11, .ok 12] }

/-- Witness for C6: searching `11` in the iteration `[10, 11, 12]` returns
position `1`; searching `99` in the iteration `[7, 8]` fails with the exact
not-in-sequence value error. -/
theorem claim_C6_witness :
    PySequence.index vmC6 (PySequence.from_obj 0) 11 = .ok 1
      ∧ PySequence.index iterVM (PySequence.from_obj 0) 99
        = .error (.valueError "sequence.index(x): x not in sequence") :=
  ⟨(claim_C6 vmC6 0 10 11 12 11).1 rfl rfl rfl (by decide),
    (claim_C6 iterVM 0 0 0 0 99).2 [7, 8] rfl (by decide) (by decide)⟩

/-- A machine with overflow bound 2 whose objects iterate as three ordinary
elements, none equal to `99`: an iterator of length `isize_max + 1`. -/
def vmC4 : VirtualMachine Nat :=
  { baseVM with
    isize_max := 2
    get_iter := fun _ => .ok [.ok 10, .ok 11, .ok 12] }

/-- Counterexample to C4: over an iterator of length exactly
`isize_max + 1`, `index` does not fail with an overflow error — with no
matching element it runs to exhaustion and fails with the not-in-sequence
value error — and `count` succeeds with `0`.  The overflow guards fire
strictly later than the claim states. -/
theorem claim_C4_counterexample :
    vmC4.get_iter 0 = .ok [Except.ok 10, Except.ok 11, Except.ok 12]
      ∧ (3 : Nat) = vmC4.isize_max + 1
      ∧ PySequence.index vmC4 (PySequence.from_obj 0) 99
          = .error (.valueError "sequence.index(x): x not in sequence")
      ∧ PySequence.count vmC4 (PySequence.from_obj 0) 99 = .ok 0 :=
  ⟨rfl, rfl, rfl, rfl⟩

/-- The count loop overflows once the `isize_max + 1`-th match is reached. -/
theorem count_loop_all_match_overflow {Obj : Type} (vm : VirtualMachine Obj)
    (target : Obj) :
    ∀ (l : List Obj) (n : Nat),
      (∀ x ∈ l, vm.bool_eq x target = .ok true) →
      n ≤ vm.isize_max →
      vm.isize_max + 1 ≤ n + l.length →
      count_loop vm target n (l.map Except.ok)
        = .error (.overflowError "index exceeds C integer size") := by
  intro l
  induction l with
  | nil =>
    intro n h hle hlen
    simp only [List.length_nil] at hlen
    omega
  | cons a l ih =>
    intro n h hle hlen
    have ha : vm.bool_eq a target = .ok true := h a (by simp)
    simp only [List.map_cons, count_loop, ha]
    by_cases hn : n = vm.isize_max
    · simp [hn]
    · rw [if_neg hn]
      refine ih (n + 1) (fun x hx => h x (by simp [hx])) (by omega) ?_
      simp only [List.length_cons] at hlen
      omega

/-- The index loop overflows once the counter reaches the bound with the
iterator still producing: that needs `isize_max + 2` unmatched positions. -/
theorem index_loop_no_match_overflow {Obj : Type} (vm : VirtualMachine Obj)
    (target : Obj) :
    ∀ (l : List Obj) (i : Int),
      (∀ x ∈ l, vm.bool_eq x target = .ok false) →
      i ≤ (vm.isize_max : Int) →
      (vm.isize_max : Int) + 1 ≤ i + l.length →
      index_loop vm target i (l.map Except.ok)
        = .error (.overflowError "index exceeds C integer size") := by
  intro l
  induction l with
  | nil =>
    intro i h hle hlen
    simp only [List.length_nil] at hlen
    omega
  | cons a l ih =>
    intro i h hle hlen
    by_cases hi : i = (vm.isize_max : Int)
    · simp [index_loop, hi]
    · have ha : vm.bool_eq a target = .ok false := h a (by simp)
      simp only [List.map_cons, index_loop, if_neg hi, ha]
      refine ih (i + 1) (fun x hx => h x (by simp [hx])) (by omega) ?_
      simp only [List.length_cons] at hlen
      push_cast at hlen ⊢
      omega

/-- Claim C4 (amended): the counter guards fail with an overflow error once
the counter would exceed `isize_max`, which happens for `count` on reaching
the `isize_max + 1`-th matching element — so on an all-matching iterator of
length `isize_max + 1` — and for `index` at the top of the
`isize_max + 2`-th iteration, so on an unmatched iterator of length
`isize_max + 2` (not `isize_max + 1` as stated). -/
theorem claim_C4_amended {Obj : Type} (vm : VirtualMachine Obj)
    (obj target : Obj) (l : List Obj) :
    (vm.get_iter obj = .ok (l.map Except.ok) →
      (∀ x ∈ l, vm.bool_eq x target = .ok true) →
      vm.isize_max + 1 ≤ l.length →
      PySequence.count vm (PySequence.from_obj obj) target
        = .error (.overflowError "index exceeds C integer size"))
    ∧ (vm.get_iter obj = .ok (l.map Except.ok) →
      (∀ x ∈ l, vm.bool_eq x target = .ok false) →
      vm.isize_max + 2 ≤ l.length →
      PySequence.index vm (PySequence.from_obj obj) target
        = .error (.overflowError "index exceeds C integer size")) := by
  constructor
  · intro hiter hall hlen
    simp only [PySequence.count, PySequence.from_obj, hiter]
    exact count_loop_all_match_overflow vm target l 0 hall (by omega) (by omega)
  · intro hiter hall hlen
    simp only [PySequence.index, PySequence.from_obj, hiter]
    refine index_loop_no_match_overflow vm target l (-1) hall ?_ ?_
    · have : (0 : Int) ≤ (vm.isize_max : Int) := Int.natCast_nonneg _
      omega
    · omega

/-- A machine with overflow bound 1 whose objects iterate as two elements
both equal to `5`. -/
def ovVM : VirtualMachine Nat :=
  { baseVM with
    isize_max := 1
    get_iter := fun _ => .ok [.ok 5, .ok 5] }

/-- A machine with overflow bound 1 whose objects iterate as three ordinary
elements, none equal to `99`. -/
def ovVM2 : VirtualMachine Nat :=
  { baseVM with
    isize_max := 1
    get_iter := fun _ => .ok [.ok 1, .ok 2, .ok 3] }

/-- Witness for the amended C4: with bound 1, `count` over two matching
elements and `index` over three unmatched elements both fail with the
overflow error. -/
theorem claim_C4_witness :
    PySequence.count ovVM (PySequence.from_obj 0) 5
        = .error (.overflowError "index exceeds C integer size")
      ∧ PySequence.index ovVM2 (PySequence.from_obj 0) 99
        = .error (.overflowError "index exceeds C integer size") :=
  ⟨(claim_C4_amended ovVM 0 5 [5, 5]).1 rfl (by decide) (by decide),
    (claim_C4_amended ovVM2 0 99 [1, 2, 3]).2 rfl (by decide) (by decide)⟩

/-- Full characterization of the count loop on ordinary elements whose
equality test succeeds: it returns the running total plus the number of
matches when that stays within the bound, and the overflow error as soon as
the bound would be exceeded. -/
theorem count_loop_spec {Obj : Type} (vm : VirtualMachine Obj) (target : Obj) :
    ∀ (l : List Obj) (n : Nat),
      (∀ x ∈ l, ∃ b, vm.bool_eq x target = .ok b) →
      (n + match_count vm target l ≤ vm.isize_max →
        count_loop vm target n (l.map Except.ok)
          = .ok (n + match_count vm target l))
      ∧ (n ≤ vm.isize_max →
        vm.isize_max + 1 ≤ n + match_count vm target l →
        count_loop vm target n (l.map Except.ok)
          = .error (.overflowError "index exceeds C integer size")) := by
  intro l
  induction l with
  | nil =>
    intro n h
    constructor
    · intro hle
      simp [match_count, count_loop]
    · intro hle hov
      simp only [match_count] at hov
      omega
  | cons a l ih =>
    intro n h
    obtain ⟨b, hb⟩ := h a (by simp)
    have htail : ∀ x ∈ l, ∃ c, vm.bool_eq x target = .ok c :=
      fun x hx => h x (by simp [hx])
    cases b with
    | false =>
      have hmc : match_count vm target (a :: l) = match_count vm target l := by
        simp [match_count, hb]
      constructor
      · intro hle
        rw [hmc] at hle ⊢
        simp only [List.map_cons, count_loop, hb]
        exact (ih n htail).1 hle
      · intro hle hov
        rw [hmc] at hov
        simp only [List.map_cons, count_loop, hb]
        exact (ih n htail).2 hle hov
    | true =>
      have hmc : match_count vm target (a :: l)
          = match_count vm target l + 1 := by
        simp [match_count, hb]
      constructor
      · intro hle
        rw [hmc] at hle ⊢
        have hn : n ≠ vm.isize_max := by omega
        simp only [List.map_cons, count_loop, hb, if_neg hn]
        rw [(ih (n + 1) htail).1 (by omega)]
        congr 1
        omega
      · intro hle hov
        rw [hmc] at hov
        simp only [List.map_cons, count_loop, hb]
        by_cases hn : n = vm.isize_max
        · simp [hn]
        · rw [if_neg hn]
          exact (ih (n + 1) htail).2 (by omega) (by omega)

/-- The count loop's successful results never exceed the bound, whatever
the iterator produces. -/
theorem count_loop_le {Obj : Type} (vm : VirtualMachine Obj) (target : Obj) :
    ∀ (results : List (PyResult Obj)) (n k : Nat),
      n ≤ vm.isize_max →
      count_loop vm target n results = .ok k → k ≤ vm.isize_max := by
  intro results
  induction results with
  | nil =>
    intro n k hn h
    simp only [count_loop] at h
    cases h
    exact hn
  | cons r rest ih =>
    intro n k hn h
    cases r with
    | error e => simp [count_loop] at h
    | ok elem =>
      cases hb : vm.bool_eq elem target with
      | error e =>
        simp only [count_loop, hb] at h
        exact absurd h (by simp)
      | ok b =>
        cases b with
        | false =>
          simp only [count_loop, hb] at h
          exact ih n k hn h
        | true =>
          simp only [count_loop, hb] at h
          by_cases hn2 : n = vm.isize_max
          · rw [if_pos hn2] at h
            simp at h
          · rw [if_neg hn2] at h
            exact ih (n + 1) k (by omega) h

/-- Claim C10: `count`'s overflow guard is evaluated only on elements that
compare equal to the target, so over an iterator of ordinary elements of any
length it succeeds — returning the number of matches — as long as at most
`isize_max` elements match, and fails with the overflow error exactly when
an `isize_max + 1`-th matching element is encountered; moreover every
successful result of `count` is at most `isize_max`. -/
theorem claim_C10 {Obj : Type} (vm : VirtualMachine Obj) (obj target : Obj)
    (l : List Obj) :
    (vm.get_iter obj = .ok (l.map Except.ok) →
      (∀ x ∈ l, ∃ b, vm.bool_eq x target = .ok b) →
      (match_count vm target l ≤ vm.isize_max →
        PySequence.count vm (PySequence.from_obj obj) target
          = .ok (match_count vm target l))
      ∧ (vm.isize_max + 1 ≤ match_count vm target l →
        PySequence.count vm (PySequence.from_obj obj) target
          = .error (.overflowError "index exceeds C integer size")))
    ∧ (∀ k, PySequence.count vm (PySequence.from_obj obj) target = .ok k →
        k ≤ vm.isize_max) := by
  constructor
  · intro hiter h
    constructor
    · intro hle
      simp only [PySequence.count, PySequence.from_obj, hiter]
      have hrun := (count_loop_spec vm target l 0 h).1 (by omega)
      simpa using hrun
    · intro hov
      simp only [PySequence.count, PySequence.from_obj, hiter]
      exact (count_loop_spec vm target l 0 h).2 (by omega) (by omega)
  · intro k hk
    simp only [PySequence.count, PySequence.from_obj] at hk
    cases hg : vm.get_iter obj with
    | error e =>
      rw [hg] at hk
      simp at hk
    | ok results =>
      rw [hg] at hk
      exact count_loop_le vm target results 0 k (by omega) hk

/-- Witness for C10: over the iteration `[7, 8]` exactly one element matches
`7`, within the bound, so `count` returns the number of matches. -/
theorem claim_C10_witness :
    PySequence.count iterVM (PySequence.from_obj 0) 7 = .ok 1 :=
  ((claim_C10 iterVM 0 7 [7, 8]).1 rfl (by decide)).1 (by decide)
